import Mathlib

/-!
Shallow embedding of the signaling / mesh-coordination core of the
clean-call repository (src/signaling.js, src/webrtc.js, src/app.js).
Identifiers, keys and error codes are modelled as `List Char`; the
realtime store's transactional updates are modelled as pure functions
of the store value at commit time.
-/

namespace CleanCall

/-- The store-reserved path characters replaced by `sanitizeKey`
(src/signaling.js: `raw.replace(/[.#$\x5b\x5d/]/g, '-')`). -/
def reservedChars : List Char := ['.', '#', '$', '[', ']', '/']

/-- Function `sanitizeKey(raw)`: every reserved character is replaced by `'-'`
(a per-character global replace). -/
def sanitizeKey (raw : List Char) : List Char :=
  raw.map (fun c => if c ∈ reservedChars then '-' else c)

/-- Function `buildOfferKey(from, to)`: sanitize the template `` `${from}__${to}` ``. -/
def buildOfferKey (fromId toId : List Char) : List Char :=
  sanitizeKey (fromId ++ ['_', '_'] ++ toId)

/-- A member record value under `rooms/<roomId>/members/<peerId>`.
Only the key set matters for admission; timestamps are carried as data. -/
structure MemberRecord where
  peerId : List Char
  joinedAt : Nat
  lastSeen : Nat
  deriving DecidableEq, Repr

/-- The members object of one room, as an insertion-ordered key list
(JS object keys of string type enumerate in insertion order). -/
abbrev Members := List (List Char)

/-- The `runTransaction` update function inside `joinRoom`
(src/signaling.js lines 105-122): idempotent re-commit for an existing
member, abort (`none`) when the room already holds 4 members, otherwise
insert the new peer at the end of the key order. -/
def joinTx (members : Members) (peerId : List Char) : Option Members :=
  if peerId ∈ members then
    some members
  else if 4 ≤ members.length then
    none
  else
    some (members ++ [peerId])

/-- Method `joinRoom(roomId, peerId)` observed at the members set: a committed
transaction returns the committed key list, an aborted transaction
surfaces `room-full`. -/
def joinRoom (members : Members) (peerId : List Char) : Except (List Char) Members :=
  match joinTx members peerId with
  | none => .error "room-full".data
  | some committed => .ok committed

/-- The members set left in the store by one `joinRoom` call: the
committed value on commit, the untouched previous value on abort. -/
def joinStore (members : Members) (peerId : List Char) : Members :=
  (joinTx members peerId).getD members

/-- The members set after a whole sequence of `joinRoom` calls. -/
def runJoins (members : Members) (peers : List (List Char)) : Members :=
  peers.foldl joinStore members

/-- A room value under `rooms/<roomId>`; `ensureRoom`'s create
transaction writes `{ createdAt, members: {} }`. -/
structure Room where
  createdAt : Nat
  members : Members
  deriving DecidableEq, Repr

/-- The `runTransaction` update function inside `ensureRoom`
(src/signaling.js lines 86-94): abort when the room already exists at
commit time, otherwise create it with an empty members object. -/
def createRoomTx (current : Option Room) (now : Nat) : Option Room :=
  match current with
  | some _ => none
  | none => some { createdAt := now, members := [] }

/-- Method `ensureRoom(roomId, \x7b createIfMissing \x7d)`, parameterised by the room
subtree seen at the initial `get` (`atRead`) and by the room subtree the
create transaction sees at commit time (`atCommit`; equal to `atRead`
when nothing runs concurrently).  Returns the room subtree afterwards,
or the surfaced error code. -/
def ensureRoom (atRead atCommit : Option Room) (createIfMissing : Bool)
    (now : Nat) : Except (List Char) (Option Room) :=
  match atRead with
  | some _ => .ok atCommit
  | none =>
    if !createIfMissing then
      .error "room-not-found".data
    else
      match createRoomTx atCommit now with
      | none => .error "room-already-exists".data
      | some created => .ok (some created)

/-- One step of `scheduleRoomCleanup(roomId, isSoleOccupant)`
(src/signaling.js lines 166-183), restricted to the armed flag of one
room (`cleanupArmed.get(roomId) ?? false`). -/
def scheduleRoomCleanup (armed : Bool) (isSoleOccupant : Bool) : Bool :=
  if isSoleOccupant && !armed then
    true
  else if !isSoleOccupant && armed then
    false
  else
    armed

/-- The membership-subscription handler's arming call
(src/webrtc.js line 304): `scheduleRoomCleanup(roomId,
members.length === 1 && members[0] === this.peerId)`. -/
def membershipCleanupArm (armed : Bool) (members : Members)
    (localPeerId : List Char) : Bool :=
  scheduleRoomCleanup armed
    (members.length == 1 && members.headD [] == localPeerId)

/-- The room-id alphabet of `createRandomRoomId` (31 characters;
no `0`, `1`, `i`, `l`, `o`). -/
def roomIdAlphabet : List Char := "abcdefghjkmnpqrstuvwxyz23456789".data

/-- Function `createRandomRoomId()` as a function of the 8 random bytes:
each byte indexes the alphabet modulo its length, the first four and
last four characters are joined with `'-'`. -/
def createRandomRoomId (randomBytes : List Nat) : List Char :=
  let chars := randomBytes.map (fun b => roomIdAlphabet.getD (b % roomIdAlphabet.length) 'a')
  (chars.take 4) ++ ['-'] ++ ((chars.drop 4).take 4)

/-- The offer signal a responder receives from `subscribeToOffers`:
the store key (`snapshot.key`) plus the record fields that matter for
pair addressing. -/
structure OfferSignal where
  id : List Char
  fromId : List Char
  toId : List Char
  deriving DecidableEq, Repr

/-- The offer an initiator publishes for `remotePeerId`
(src/webrtc.js `createConnection` + `handleInitiatorFlow`): the key is
`buildOfferId(this.peerId, remotePeerId)` and the record carries
`from = this.peerId`, `to = remotePeerId`. -/
def initiatorOffer (localPeerId remotePeerId : List Char) : OfferSignal :=
  { id := buildOfferKey localPeerId remotePeerId
    fromId := localPeerId
    toId := remotePeerId }

/-- The pair key the responder adopts in `handleOffer`:
`connection.offerId = offerSignal.id`. -/
def responderOfferId (offer : OfferSignal) : List Char :=
  offer.id

/-- A local `Connection` entry of `PeerMeshManager.connections`
(src/webrtc.js lines 369-377); candidate subscriptions are tracked by
count, the answer subscription by presence. -/
structure Connection where
  remotePeerId : List Char
  offerId : List Char
  initiator : Bool
  candidateSubscriptions : Nat
  answerSubscription : Bool
  closing : Bool
  deriving DecidableEq, Repr

/-- The coordinator state `teardownConnection` touches: the connections
table plus counters of the externally visible teardown effects
(listener removals, `pc.close()`, `onRemoteStreamRemoved`
notifications). -/
structure MeshState where
  connections : List Char → Option Connection
  unsubscribedListeners : Nat
  closedTransports : Nat
  streamRemovedNotices : Nat

/-- The guard and flag-set prefix of `teardownConnection`
(src/webrtc.js lines 496-500): return early when the connection is
absent or already closing, otherwise set `closing := true`.  The
boolean reports whether the body will run. -/
def teardownBegin (st : MeshState) (remotePeerId : List Char) :
    MeshState × Bool :=
  match st.connections remotePeerId with
  | none => (st, false)
  | some c =>
    if c.closing then
      (st, false)
    else
      ({ st with
          connections := fun k =>
            if k = remotePeerId then some { c with closing := true }
            else st.connections k },
        true)

/-- The body of `teardownConnection` (src/webrtc.js lines 503-534):
unsubscribe candidate and answer listeners, null out and close the
transport, delete the table entry, notify `onRemoteStreamRemoved`, then
best-effort clear the signaling records. -/
def teardownFinish (st : MeshState) (remotePeerId : List Char) : MeshState :=
  match st.connections remotePeerId with
  | none => st
  | some c =>
    { connections := fun k =>
        if k = remotePeerId then none else st.connections k
      unsubscribedListeners := st.unsubscribedListeners +
        c.candidateSubscriptions + (if c.answerSubscription then 1 else 0)
      closedTransports := st.closedTransports + 1
      streamRemovedNotices := st.streamRemovedNotices + 1 }

/-- Method `teardownConnection(remotePeerId, reason)` run to completion. -/
def teardownConnection (st : MeshState) (remotePeerId : List Char) : MeshState :=
  let (st1, run) := teardownBegin st remotePeerId
  if run then teardownFinish st1 remotePeerId else st1

/-- JS `String.prototype.trim` whitespace, restricted to the common
ASCII whitespace characters. -/
def isJsSpace (c : Char) : Bool :=
  c = ' ' || c = '\t' || c = '\n' || c = '\r'

/-- Expression `roomId.trim()`. -/
def trimChars (s : List Char) : List Char :=
  ((s.dropWhile isJsSpace).reverse.dropWhile isJsSpace).reverse

/-- The session fields of `PeerMeshManager` that `join`/`leave` guard on. -/
structure SessionState where
  roomId : Option (List Char)
  peerId : Option (List Char)
  deriving DecidableEq, Repr

/-- A fresh `PeerMeshManager` (`this.roomId = null; this.peerId = null`). -/
def initialSession : SessionState :=
  { roomId := none, peerId := none }

/-- Method `PeerMeshManager.join(roomId, ...)` (src/webrtc.js lines 278-331)
observed at the session fields.  `newPeerId` stands for the generated
`` `peer-${crypto.randomUUID().slice(0, 8)}` `` and `admission` for the
outcome of `ensureRoom` followed by `joinRoom` (whose errors `join`
does not catch).  Returns the state after the call together with the
call's result. -/
def meshJoin (st : SessionState) (roomId : List Char) (newPeerId : List Char)
    (admission : Except (List Char) Members) :
    SessionState × Except (List Char) (List Char × List Char) :=
  if st.roomId.isSome then
    (st, .error "already-in-room".data)
  else
    let normalizedRoomId := trimChars roomId
    if normalizedRoomId.isEmpty then
      (st, .error "invalid-room-id".data)
    else
      let st1 : SessionState :=
        { roomId := some normalizedRoomId, peerId := some newPeerId }
      match admission with
      | .error e => (st1, .error e)
      | .ok _ => (st1, .ok (normalizedRoomId, newPeerId))

/-- Method `PeerMeshManager.leave()` observed at the session fields: a no-op
unless both fields are set, otherwise both are reset to `null`. -/
def meshLeave (st : SessionState) : SessionState :=
  if st.roomId.isNone || st.peerId.isNone then st
  else { roomId := none, peerId := none }

/-- Transport `RTCPeerConnection.iceConnectionState` values. -/
inductive IceState
  | new | checking | connected | completed | failed | disconnected | closed
  deriving DecidableEq, Repr

/-- Transport `RTCPeerConnection.connectionState` values. -/
inductive PeerConnState
  | new | connecting | connected | disconnected | failed | closed
  deriving DecidableEq, Repr

/-- A transport event delivered to one connection's handlers:
a non-null local candidate (`onicecandidate`), an ICE connection state
change, or a peer connection state change. -/
inductive ConnEvent
  | localCandidate (payload : Nat)
  | iceStateChange (s : IceState)
  | connStateChange (s : PeerConnState)
  deriving DecidableEq, Repr

/-- The store's candidate lists for one pair key, plus whether this
connection has been torn down (teardown nulls out every handler, so a
torn connection reacts to nothing). -/
structure PairChannelState where
  callerCandidates : List Nat
  calleeCandidates : List Nat
  torn : Bool
  deriving DecidableEq, Repr

/-- The state of a freshly created connection's pair channel. -/
def initialPairChannel : PairChannelState :=
  { callerCandidates := [], calleeCandidates := [], torn := false }

/-- The teardown effect on the pair channel: handlers detached and both
candidate lists best-effort cleared (`clearCandidates` inside
`teardownConnection`). -/
def tearDownChannel : PairChannelState :=
  { callerCandidates := [], calleeCandidates := [], torn := true }

/-- One transport event processed by the handlers installed in
`createConnection` (src/webrtc.js lines 379-412): `onicecandidate`
publishes the candidate under the role-appropriate list;
`oniceconnectionstatechange` tears down on failed/closed and clears
both candidate lists on connected/completed; `onconnectionstatechange`
tears down on disconnected/failed/closed. -/
def stepConn (isInitiator : Bool) (st : PairChannelState) (e : ConnEvent) :
    PairChannelState :=
  if st.torn then st
  else
    match e with
    | .localCandidate payload =>
      if isInitiator then
        { st with callerCandidates := st.callerCandidates ++ [payload] }
      else
        { st with calleeCandidates := st.calleeCandidates ++ [payload] }
    | .iceStateChange s =>
      if s = .failed ∨ s = .closed then
        tearDownChannel
      else if s = .connected ∨ s = .completed then
        { st with callerCandidates := [], calleeCandidates := [] }
      else
        st
    | .connStateChange s =>
      if s = .disconnected ∨ s = .failed ∨ s = .closed then
        tearDownChannel
      else
        st

/-- A whole sequence of transport events. -/
def runConn (isInitiator : Bool) (st : PairChannelState)
    (events : List ConnEvent) : PairChannelState :=
  events.foldl (stepConn isInitiator) st

/-- The lowercase hexadecimal digits: the characters
`crypto.randomUUID().slice(0, 8)` can produce. -/
def hexChars : List Char := "0123456789abcdef".data

/-- A peer identifier as generated by `PeerMeshManager.join`:
the five characters `peer-` followed by 8 UUID hex characters. -/
def IsPeerId (s : List Char) : Prop :=
  s.length = 13 ∧ s.take 5 = ['p', 'e', 'e', 'r', '-'] ∧
    ∀ c ∈ s.drop 5, c ∈ hexChars

instance (s : List Char) : Decidable (IsPeerId s) := by
  unfold IsPeerId
  infer_instance

/-- The admission sequence `join` awaits (src/webrtc.js lines 293-294):
`ensureRoom` followed by `joinRoom`, either error propagating uncaught. -/
def admissionOutcome (atRead atCommit : Option Room) (createIfMissing : Bool)
    (now : Nat) (members : Members) (peerId : List Char) :
    Except (List Char) Members :=
  match ensureRoom atRead atCommit createIfMissing now with
  | .error e => .error e
  | .ok _ => joinRoom members peerId

/-- A live (not yet closing) connection used to instantiate the
teardown theorems. -/
def conn0 : Connection :=
  { remotePeerId := ['b'], offerId := ['k'], initiator := true
    candidateSubscriptions := 2, answerSubscription := true, closing := false }

/-- A coordinator state holding exactly the live connection `conn0`. -/
def mesh0 : MeshState :=
  { connections := fun k => if k = ['b'] then some conn0 else none
    unsubscribedListeners := 0, closedTransports := 0
    streamRemovedNotices := 0 }

/-! ## Helper lemmas -/

/-- One `joinRoom` call never pushes the members set past 4 entries. -/
theorem joinStore_length_le (members : Members) (p : List Char)
    (h : members.length ≤ 4) : (joinStore members p).length ≤ 4 := by
  unfold joinStore joinTx
  split
  · simpa using h
  · split
    · simpa using h
    · rename_i hmem hlen
      simp only [Option.getD_some, List.length_append, List.length_cons,
        List.length_nil]
      omega

/-- Any sequence of `joinRoom` calls preserves the capacity bound. -/
theorem runJoins_length_le (joins : List (List Char)) (members : Members)
    (h : members.length ≤ 4) : (runJoins members joins).length ≤ 4 := by
  induction joins generalizing members with
  | nil => simpa [runJoins] using h
  | cons p ps ih =>
    simpa [runJoins, List.foldl_cons] using
      ih (joinStore members p) (joinStore_length_le members p h)

/-- After any `scheduleRoomCleanup` call the armed flag equals the
`isSoleOccupant` argument. -/
theorem scheduleRoomCleanup_eq (armed isSoleOccupant : Bool) :
    scheduleRoomCleanup armed isSoleOccupant = isSoleOccupant := by
  cases armed <;> cases isSoleOccupant <;> rfl

/-! ## Claim theorems -/

/-- C1: the room capacity invariant.  A `joinRoom` call for a peer that
is not yet a member of a room already holding at least 4 members makes
the transaction abort, fails with `room-full` and leaves the members
set unchanged; consequently, starting from an empty room, no sequence
of `joinRoom` calls ever pushes the members set past 4 entries, so a
5th distinct peer always fails regardless of arrival order. -/
theorem C1_room_capacity (members : Members) (peerId : List Char)
    (joins : List (List Char)) :
    (peerId ∉ members → 4 ≤ members.length →
      joinRoom members peerId = .error "room-full".data ∧
        joinStore members peerId = members)
    ∧ (runJoins [] joins).length ≤ 4
    ∧ (peerId ∉ runJoins [] joins → 4 ≤ (runJoins [] joins).length →
        joinRoom (runJoins [] joins) peerId = .error "room-full".data) := by
  refine ⟨fun hmem hlen => ?_, runJoins_length_le joins [] (by simp), ?_⟩
  · constructor
    · unfold joinRoom joinTx
      simp [hmem, hlen]
    · unfold joinStore joinTx
      simp [hmem, hlen]
  · intro hmem hlen
    unfold joinRoom joinTx
    simp [hmem, hlen]

/-- C1 witness: a 5th distinct peer is rejected by a full room and the
members set is untouched. -/
theorem C1_room_capacity_witness :
    joinRoom [['a'], ['b'], ['c'], ['d']] ['e'] = .error "room-full".data
    ∧ joinStore [['a'], ['b'], ['c'], ['d']] ['e'] = [['a'], ['b'], ['c'], ['d']] :=
  (C1_room_capacity [['a'], ['b'], ['c'], ['d']] ['e'] []).1 (by decide) (by decide)

/-- C6: `joinRoom` is idempotent for an existing member: the
transaction re-commits the members set unchanged and the call succeeds
even when the set already holds 4 members. -/
theorem C6_join_idempotent (members : Members) (peerId : List Char)
    (h : peerId ∈ members) :
    joinRoom members peerId = .ok members ∧ joinStore members peerId = members := by
  constructor
  · unfold joinRoom joinTx
    simp [h]
  · unfold joinStore joinTx
    simp [h]

/-- C6 witness: re-joining the 4th member of a full room succeeds with
the members set unchanged. -/
theorem C6_join_idempotent_witness :
    joinRoom [['a'], ['b'], ['c'], ['d']] ['d'] = .ok [['a'], ['b'], ['c'], ['d']]
    ∧ joinStore [['a'], ['b'], ['c'], ['d']] ['d'] = [['a'], ['b'], ['c'], ['d']] :=
  C6_join_idempotent [['a'], ['b'], ['c'], ['d']] ['d'] (by decide)

/-- C5: after processing any membership-change notification, the
room-level cleanup is armed if and only if the reported member list is
exactly the singleton holding the local peer id. -/
theorem C5_cleanup_armed_iff (armed : Bool) (members : Members)
    (localPeerId : List Char) :
    membershipCleanupArm armed members localPeerId = true ↔
      members = [localPeerId] := by
  unfold membershipCleanupArm
  rw [scheduleRoomCleanup_eq]
  simp only [Bool.and_eq_true, beq_iff_eq]
  constructor
  · rintro ⟨h1, h2⟩
    obtain ⟨a, rfl⟩ := List.length_eq_one.mp h1
    simpa using h2
  · rintro rfl
    simp

/-- C9: for every pair of input strings, `buildOfferKey` returns a
string free of the store-reserved path characters, and it equals the
two sanitized parts joined with `__` (sanitizing before or after the
join is the same because the replacement is per-character and `_` is
not reserved). -/
theorem C9_key_free_of_reserved (fromId toId : List Char) :
    (∀ c ∈ buildOfferKey fromId toId, c ∉ reservedChars)
    ∧ buildOfferKey fromId toId =
        sanitizeKey fromId ++ ['_', '_'] ++ sanitizeKey toId := by
  constructor
  · intro c hc
    unfold buildOfferKey sanitizeKey at hc
    obtain ⟨a, _, ha⟩ := List.mem_map.mp hc
    by_cases h : a ∈ reservedChars
    · rw [if_pos h] at ha
      subst ha
      decide
    · rw [if_neg h] at ha
      subst ha
      exact h
  · unfold buildOfferKey sanitizeKey
    rw [List.map_append, List.map_append]
    rfl

/-- C9 witness: inputs made of reserved characters only produce a key
of dashes and the separator, and the replacement dash is itself not a
reserved character. -/
theorem C9_key_free_of_reserved_witness :
    buildOfferKey ['.'] ['#'] = sanitizeKey ['.'] ++ ['_', '_'] ++ sanitizeKey ['#']
    ∧ '-' ∉ reservedChars :=
  ⟨(C9_key_free_of_reserved ['.'] ['#']).2,
   (C9_key_free_of_reserved ['.'] ['#']).1 '-' (by decide)⟩

/-- An in-bounds `List.getD` lookup returns an element of the list. -/
theorem getD_mem_of_lt {α : Type} (l : List α) (i : Nat) (d : α)
    (h : i < l.length) : l.getD i d ∈ l := by
  rw [List.getD_eq_getElem?_getD, List.getElem?_eq_getElem h]
  exact List.getElem_mem _

/-- C10: for every 8-byte input, `createRandomRoomId` returns a
9-character string of the form `XXXX-XXXX` whose non-dash characters
are drawn from the 31-character alphabet, which avoids `0`, `1`, `i`,
`l`, `o` and every store-reserved character. -/
theorem C10_room_id_shape (randomBytes : List Nat)
    (h : randomBytes.length = 8) :
    ∃ a b, createRandomRoomId randomBytes = a ++ '-' :: b
      ∧ a.length = 4 ∧ b.length = 4
      ∧ (∀ c ∈ a, c ∈ roomIdAlphabet) ∧ (∀ c ∈ b, c ∈ roomIdAlphabet)
      ∧ (createRandomRoomId randomBytes).length = 9
      ∧ (∀ c ∈ roomIdAlphabet,
          c ∉ ['0', '1', 'i', 'l', 'o'] ∧ c ∉ reservedChars) := by
  have halpha : ∀ c ∈ roomIdAlphabet,
      c ∉ ['0', '1', 'i', 'l', 'o'] ∧ c ∉ reservedChars := by decide
  have hmem : ∀ b : Nat,
      roomIdAlphabet.getD (b % roomIdAlphabet.length) 'a' ∈ roomIdAlphabet := by
    intro b
    exact getD_mem_of_lt roomIdAlphabet _ 'a'
      (Nat.mod_lt _ (by decide))
  match randomBytes, h with
  | [b0, b1, b2, b3, b4, b5, b6, b7], _ =>
    refine ⟨[roomIdAlphabet.getD (b0 % roomIdAlphabet.length) 'a',
             roomIdAlphabet.getD (b1 % roomIdAlphabet.length) 'a',
             roomIdAlphabet.getD (b2 % roomIdAlphabet.length) 'a',
             roomIdAlphabet.getD (b3 % roomIdAlphabet.length) 'a'],
            [roomIdAlphabet.getD (b4 % roomIdAlphabet.length) 'a',
             roomIdAlphabet.getD (b5 % roomIdAlphabet.length) 'a',
             roomIdAlphabet.getD (b6 % roomIdAlphabet.length) 'a',
             roomIdAlphabet.getD (b7 % roomIdAlphabet.length) 'a'],
            rfl, rfl, rfl, ?_, ?_, rfl, halpha⟩
    · intro c hc
      simp only [List.mem_cons, List.not_mem_nil, or_false] at hc
      rcases hc with rfl | rfl | rfl | rfl <;> exact hmem _
    · intro c hc
      simp only [List.mem_cons, List.not_mem_nil, or_false] at hc
      rcases hc with rfl | rfl | rfl | rfl <;> exact hmem _

/-- C10 witness: the shape theorem instantiated at a concrete byte
vector. -/
theorem C10_room_id_shape_witness :
    ∃ a b, createRandomRoomId [0, 1, 2, 3, 30, 31, 61, 255] = a ++ '-' :: b
      ∧ a.length = 4 ∧ b.length = 4
      ∧ (∀ c ∈ a, c ∈ roomIdAlphabet) ∧ (∀ c ∈ b, c ∈ roomIdAlphabet)
      ∧ (createRandomRoomId [0, 1, 2, 3, 30, 31, 61, 255]).length = 9
      ∧ (∀ c ∈ roomIdAlphabet,
          c ∉ ['0', '1', 'i', 'l', 'o'] ∧ c ∉ reservedChars) :=
  C10_room_id_shape [0, 1, 2, 3, 30, 31, 61, 255] (by decide)

/-- Sanitizing a string free of reserved characters leaves it
unchanged. -/
theorem sanitizeKey_eq_self {s : List Char}
    (h : ∀ c ∈ s, c ∉ reservedChars) : sanitizeKey s = s := by
  induction s with
  | nil => rfl
  | cons x xs ih =>
    unfold sanitizeKey
    simp only [List.map_cons]
    rw [if_neg (h x (List.mem_cons_self x xs))]
    have := ih fun c hc => h c (List.mem_cons_of_mem x hc)
    unfold sanitizeKey at this
    rw [this]

/-- Every character of a peer identifier is neither store-reserved nor
an underscore. -/
theorem peerId_chars_clean {s : List Char} (h : IsPeerId s) :
    ∀ c ∈ s, c ∉ reservedChars ∧ c ≠ '_' := by
  obtain ⟨-, htake, hdrop⟩ := h
  have hhead : ∀ c ∈ (['p', 'e', 'e', 'r', '-'] : List Char),
      c ∉ reservedChars ∧ c ≠ '_' := by decide
  have hhex : ∀ c ∈ hexChars, c ∉ reservedChars ∧ c ≠ '_' := by decide
  intro c hc
  rw [← List.take_append_drop 5 s] at hc
  rcases List.mem_append.mp hc with hl | hr
  · exact hhead c (htake ▸ hl)
  · exact hhex c (hdrop c hr)

/-- C4: the pair key is a pure deterministic function, collision-free
over peer identifiers (so equal keys force equal `from` and `to`), and
the key the responder adopts from a received offer (`offerSignal.id`)
equals the key the initiator computed from its own `(from, to)` pair,
which in turn equals the key recomputed from the offer record's
`from`/`to` fields. -/
theorem C4_pair_key_injective (A B A' B' : List Char)
    (hA : IsPeerId A) (hB : IsPeerId B) (hA' : IsPeerId A') (hB' : IsPeerId B')
    (h : buildOfferKey A B = buildOfferKey A' B') :
    (A = A' ∧ B = B')
    ∧ (∀ localPeerId remotePeerId : List Char,
        responderOfferId (initiatorOffer localPeerId remotePeerId) =
          buildOfferKey localPeerId remotePeerId
        ∧ buildOfferKey (initiatorOffer localPeerId remotePeerId).fromId
            (initiatorOffer localPeerId remotePeerId).toId =
          buildOfferKey localPeerId remotePeerId) := by
  refine ⟨?_, fun localPeerId remotePeerId => ⟨rfl, rfl⟩⟩
  have clean : ∀ {s : List Char}, IsPeerId s →
      ∀ c ∈ s ++ ['_', '_'], c ∉ reservedChars := by
    intro s hs c hc
    rcases List.mem_append.mp hc with hl | hr
    · exact (peerId_chars_clean hs c hl).1
    · simp only [List.mem_cons, List.not_mem_nil, or_false] at hr
      rcases hr with rfl | rfl <;> decide
  have key_eq : ∀ {X Y : List Char}, IsPeerId X → IsPeerId Y →
      buildOfferKey X Y = (X ++ ['_', '_']) ++ Y := by
    intro X Y hX hY
    unfold buildOfferKey
    have : ∀ c ∈ (X ++ ['_', '_']) ++ Y, c ∉ reservedChars := by
      intro c hc
      rcases List.mem_append.mp hc with hl | hr
      · exact clean hX c hl
      · exact (peerId_chars_clean hY c hr).1
    exact sanitizeKey_eq_self this
  rw [key_eq hA hB, key_eq hA' hB'] at h
  have hlen : (A ++ ['_', '_']).length = (A' ++ ['_', '_']).length := by
    simp [hA.1, hA'.1]
  obtain ⟨hfront, hB2⟩ := List.append_inj h hlen
  refine ⟨?_, hB2⟩
  have hlenA : A.length = A'.length := by rw [hA.1, hA'.1]
  exact (List.append_inj hfront hlenA).1

/-- C4 witness: the injectivity theorem instantiated at two concrete
peer identifiers. -/
theorem C4_pair_key_injective_witness :
    ("peer-0a1b2c3d".data = "peer-0a1b2c3d".data
      ∧ "peer-4e5f6789".data = "peer-4e5f6789".data)
    ∧ (∀ localPeerId remotePeerId : List Char,
        responderOfferId (initiatorOffer localPeerId remotePeerId) =
          buildOfferKey localPeerId remotePeerId
        ∧ buildOfferKey (initiatorOffer localPeerId remotePeerId).fromId
            (initiatorOffer localPeerId remotePeerId).toId =
          buildOfferKey localPeerId remotePeerId) :=
  C4_pair_key_injective "peer-0a1b2c3d".data "peer-4e5f6789".data
    "peer-0a1b2c3d".data "peer-4e5f6789".data
    (by decide) (by decide) (by decide) (by decide) rfl

/-- C3 counterexample: when the room is absent at the initial read but
present by the time the create transaction commits (the
concurrent-creation loser), `ensureRoom` with `createIfMissing = true`
does not succeed: it fails with `room-already-exists`, and
`PeerMeshManager.join` surfaces that very failure to the joining
caller instead of treating it as "proceed, room exists now". -/
theorem C3_counterexample :
    ensureRoom none (some { createdAt := 0, members := [] }) true 1 =
      .error "room-already-exists".data
    ∧ (meshJoin initialSession ['r', '1'] "peer-0a1b2c3d".data
        (admissionOutcome none (some { createdAt := 0, members := [] }) true 1
          [] "peer-0a1b2c3d".data)).2 =
      .error "room-already-exists".data := by
  constructor <;> rfl

/-- C3 amended: `ensureRoom` on a room absent at read fails with
`room-not-found` when `createIfMissing` is false; with
`createIfMissing = true` it succeeds whenever the room subtree is
unchanged between read and commit (and on any success from the absent
case the room exists afterwards), while a concurrent-creation loser
fails with `room-already-exists` — an error the joining caller
propagates rather than swallows. -/
theorem C3_ensure_room_behavior (atRead atCommit : Option Room) (now : Nat)
    (st : SessionState) (roomId newPeerId : List Char) (members : Members) :
    (atRead = none →
      ensureRoom atRead atCommit false now = .error "room-not-found".data)
    ∧ (atRead = atCommit →
        ∃ room, ensureRoom atRead atCommit true now = .ok (some room))
    ∧ (∀ result, ensureRoom atRead atCommit true now = .ok result →
        atRead = none → ∃ room, result = some room)
    ∧ (atRead = none → ∀ r, atCommit = some r →
        ensureRoom atRead atCommit true now = .error "room-already-exists".data)
    ∧ (∀ e, st.roomId = none → (trimChars roomId).isEmpty = false →
        admissionOutcome atRead atCommit true now members newPeerId = .error e →
        (meshJoin st roomId newPeerId
          (admissionOutcome atRead atCommit true now members newPeerId)).2 =
          .error e) := by
  refine ⟨?_, ?_, ?_, ?_, ?_⟩
  · rintro rfl
    rfl
  · rintro rfl
    cases atRead with
    | none => exact ⟨_, rfl⟩
    | some r => exact ⟨r, rfl⟩
  · intro result hres hnone
    subst hnone
    cases atCommit with
    | none =>
      simp only [ensureRoom, createRoomTx, Bool.not_true, Bool.false_eq_true,
        if_false, Except.ok.injEq] at hres
      exact ⟨_, hres.symm⟩
    | some r =>
      simp [ensureRoom, createRoomTx] at hres
  · rintro rfl r rfl
    rfl
  · intro e hroom htrim hadm
    rw [hadm]
    simp [meshJoin, hroom, htrim]

/-- C3 witness: concrete instances of the amended `ensureRoom`
behavior — missing-room failure, successful creation, and the
concurrent-loser error. -/
theorem C3_ensure_room_behavior_witness :
    ensureRoom none none false 0 = .error "room-not-found".data
    ∧ (∃ room, ensureRoom none none true 0 = .ok (some room))
    ∧ ensureRoom none (some { createdAt := 0, members := [] }) true 0 =
        .error "room-already-exists".data :=
  ⟨(C3_ensure_room_behavior none none 0 initialSession ['r'] ['p'] []).1 rfl,
   (C3_ensure_room_behavior none none 0 initialSession ['r'] ['p'] []).2.1 rfl,
   (C3_ensure_room_behavior none (some { createdAt := 0, members := [] }) 0
      initialSession ['r'] ['p'] []).2.2.2.1 rfl _ rfl⟩

/-- C8: `PeerMeshManager.join` is not atomic on admission failure:
starting from a fresh session, a join whose admission throws leaves
`roomId`/`peerId` assigned, the admission error is surfaced, every
subsequent `join` call fails with `already-in-room`, and `leave`
resets the session fields. -/
theorem C8_join_not_atomic (roomId newPeerId e : List Char)
    (admission : Except (List Char) Members)
    (htrim : (trimChars roomId).isEmpty = false)
    (hadm : admission = .error e) :
    (meshJoin initialSession roomId newPeerId admission).2 = .error e
    ∧ (meshJoin initialSession roomId newPeerId admission).1.roomId =
        some (trimChars roomId)
    ∧ (meshJoin initialSession roomId newPeerId admission).1.peerId =
        some newPeerId
    ∧ (∀ roomId2 newPeerId2 admission2,
        (meshJoin (meshJoin initialSession roomId newPeerId admission).1
          roomId2 newPeerId2 admission2).2 = .error "already-in-room".data)
    ∧ meshLeave (meshJoin initialSession roomId newPeerId admission).1 =
        initialSession := by
  subst hadm
  have h1 : meshJoin initialSession roomId newPeerId (.error e) =
      ({ roomId := some (trimChars roomId), peerId := some newPeerId },
        .error e) := by
    simp [meshJoin, initialSession, htrim]
  rw [h1]
  exact ⟨rfl, rfl, rfl, fun r2 p2 a2 => by simp [meshJoin], rfl⟩

/-- C8 witness: a concrete failed join (room full) leaves the session
fields set, makes the next join fail with `already-in-room`, and is
cleared by `leave`. -/
theorem C8_join_not_atomic_witness :
    (meshJoin initialSession ['r', '1'] "peer-0a1b2c3d".data
        (.error "room-full".data)).2 = .error "room-full".data
    ∧ (meshJoin initialSession ['r', '1'] "peer-0a1b2c3d".data
        (.error "room-full".data)).1.roomId = some (trimChars ['r', '1'])
    ∧ (meshJoin initialSession ['r', '1'] "peer-0a1b2c3d".data
        (.error "room-full".data)).1.peerId = some "peer-0a1b2c3d".data
    ∧ (∀ roomId2 newPeerId2 admission2,
        (meshJoin (meshJoin initialSession ['r', '1'] "peer-0a1b2c3d".data
          (.error "room-full".data)).1
          roomId2 newPeerId2 admission2).2 = .error "already-in-room".data)
    ∧ meshLeave (meshJoin initialSession ['r', '1'] "peer-0a1b2c3d".data
        (.error "room-full".data)).1 = initialSession :=
  C8_join_not_atomic ['r', '1'] "peer-0a1b2c3d".data "room-full".data
    (.error "room-full".data) (by decide) rfl

/-- Evaluating the teardown guard on an absent connection. -/
theorem teardownBegin_none (st : MeshState) (remotePeerId : List Char)
    (hc : st.connections remotePeerId = none) :
    teardownBegin st remotePeerId = (st, false) := by
  unfold teardownBegin
  rw [hc]

/-- Evaluating the teardown guard on a connection already closing. -/
theorem teardownBegin_closing (st : MeshState) (remotePeerId : List Char)
    (c : Connection) (hc : st.connections remotePeerId = some c)
    (hclosing : c.closing = true) :
    teardownBegin st remotePeerId = (st, false) := by
  unfold teardownBegin
  rw [hc]
  simp [hclosing]

/-- Evaluating the teardown guard on a live connection: the closing
flag is set and the body will run. -/
theorem teardownBegin_live (st : MeshState) (remotePeerId : List Char)
    (c : Connection) (hc : st.connections remotePeerId = some c)
    (hclosing : c.closing = false) :
    teardownBegin st remotePeerId =
      ({ st with
          connections := fun k =>
            if k = remotePeerId then some { c with closing := true }
            else st.connections k },
        true) := by
  unfold teardownBegin
  rw [hc]
  simp [hclosing]

/-- Running `teardownConnection` on a live connection removes it from
the table and performs the unsubscribe/close/notify sequence once. -/
theorem teardownConnection_live (st : MeshState) (remotePeerId : List Char)
    (c : Connection) (hc : st.connections remotePeerId = some c)
    (hclosing : c.closing = false) :
    (teardownConnection st remotePeerId).connections remotePeerId = none
    ∧ (teardownConnection st remotePeerId).streamRemovedNotices =
        st.streamRemovedNotices + 1 := by
  unfold teardownConnection
  rw [teardownBegin_live st remotePeerId c hc hclosing]
  unfold teardownFinish
  simp

/-- C2: `teardownConnection` is idempotent.  A second sequential
invocation is a no-op; a full teardown of a live connection performs
the unsubscribe/close/notify sequence exactly once (one
`onRemoteStreamRemoved` notification); an invocation finding the
`closing` flag already set, or the connection already removed from the
coordinator's table, returns early without touching the state — in
particular a second invocation interleaved after the first one has set
the flag (`teardownBegin`) is a no-op. -/
theorem C2_teardown_idempotent (st : MeshState) (remotePeerId : List Char) :
    teardownConnection (teardownConnection st remotePeerId) remotePeerId =
      teardownConnection st remotePeerId
    ∧ (∀ c, st.connections remotePeerId = some c → c.closing = false →
        (teardownConnection st remotePeerId).streamRemovedNotices =
          st.streamRemovedNotices + 1)
    ∧ (∀ c, st.connections remotePeerId = some c → c.closing = true →
        teardownConnection st remotePeerId = st)
    ∧ (st.connections remotePeerId = none →
        teardownConnection st remotePeerId = st)
    ∧ (∀ st1, teardownBegin st remotePeerId = (st1, true) →
        teardownConnection st1 remotePeerId = st1) := by
  have hnone : ∀ s : MeshState, s.connections remotePeerId = none →
      teardownConnection s remotePeerId = s := by
    intro s hs
    unfold teardownConnection
    rw [teardownBegin_none s remotePeerId hs]
    rfl
  have hflag : ∀ (s : MeshState) (c : Connection),
      s.connections remotePeerId = some c → c.closing = true →
      teardownConnection s remotePeerId = s := by
    intro s c hs hc
    unfold teardownConnection
    rw [teardownBegin_closing s remotePeerId c hs hc]
    rfl
  refine ⟨?_, ?_, fun c hc hcl => hflag st c hc hcl, hnone st, ?_⟩
  · rcases hconn : st.connections remotePeerId with _ | c
    · rw [hnone st hconn, hnone st hconn]
    · rcases hclosing : c.closing with _ | _
      · exact hnone _ (teardownConnection_live st remotePeerId c hconn hclosing).1
      · rw [hflag st c hconn hclosing, hflag st c hconn hclosing]
  · intro c hc hcl
    exact (teardownConnection_live st remotePeerId c hc hcl).2
  · intro st1 hbegin
    rcases hconn : st.connections remotePeerId with _ | c
    · rw [teardownBegin_none st remotePeerId hconn] at hbegin
      simp at hbegin
    · rcases hclosing : c.closing with _ | _
      · rw [teardownBegin_live st remotePeerId c hconn hclosing] at hbegin
        obtain ⟨hst1, -⟩ := Prod.mk.injEq .. ▸ hbegin
        refine hflag st1 { c with closing := true } ?_ rfl
        rw [← hst1]
        simp
      · rw [teardownBegin_closing st remotePeerId c hconn hclosing] at hbegin
        simp at hbegin

/-- C2 witness: tearing a live single-connection state down twice is
the same as tearing it down once, and one teardown performs exactly
one notify. -/
theorem C2_teardown_idempotent_witness :
    teardownConnection (teardownConnection mesh0 ['b']) ['b'] =
      teardownConnection mesh0 ['b']
    ∧ (teardownConnection mesh0 ['b']).streamRemovedNotices =
        mesh0.streamRemovedNotices + 1 :=
  ⟨(C2_teardown_idempotent mesh0 ['b']).1,
   (C2_teardown_idempotent mesh0 ['b']).2.1 conn0 (by simp [mesh0]) rfl⟩

/-- C7 counterexample: the candidate lists do not remain empty for the
remainder of the connection's life.  After the ICE state reports
`connected` (which clears both lists), a late local candidate is still
published by `onicecandidate` and repopulates the caller-side list
while the connection is still alive (not torn down). -/
theorem C7_counterexample :
    (runConn true initialPairChannel
        [.iceStateChange .connected, .localCandidate 0]).callerCandidates ≠ []
    ∧ (runConn true initialPairChannel
        [.iceStateChange .connected, .localCandidate 0]).torn = false := by
  decide

/-- C7 amended: for a live connection, an ICE transition to
`connected` or `completed` clears both candidate lists of the pair
key; both lists stay empty across any subsequent event that is not the
publication of a new local candidate; an ICE transition to `failed` or
`closed`, or a connection-state transition to `disconnected`, `failed`
or `closed`, triggers teardown of the connection (which detaches the
handlers and clears both lists). -/
theorem C7_candidate_clearing (isInitiator : Bool) (st : PairChannelState)
    (s : IceState) (p : PeerConnState) (e : ConnEvent) :
    (st.torn = false → s = .connected ∨ s = .completed →
      (stepConn isInitiator st (.iceStateChange s)).callerCandidates = []
      ∧ (stepConn isInitiator st (.iceStateChange s)).calleeCandidates = [])
    ∧ (st.callerCandidates = [] → st.calleeCandidates = [] →
        (∀ payload, e ≠ .localCandidate payload) →
        (stepConn isInitiator st e).callerCandidates = []
        ∧ (stepConn isInitiator st e).calleeCandidates = [])
    ∧ (st.torn = false → s = .failed ∨ s = .closed →
        stepConn isInitiator st (.iceStateChange s) = tearDownChannel)
    ∧ (st.torn = false → p = .disconnected ∨ p = .failed ∨ p = .closed →
        stepConn isInitiator st (.connStateChange p) = tearDownChannel) := by
  refine ⟨?_, ?_, ?_, ?_⟩
  · intro htorn hs
    rcases hs with rfl | rfl <;> simp [stepConn, htorn, tearDownChannel]
  · intro hcaller hcallee hnotlocal
    cases e with
    | localCandidate payload => exact absurd rfl (hnotlocal payload)
    | iceStateChange s0 =>
      by_cases htorn : st.torn
      · simp [stepConn, htorn, hcaller, hcallee]
      · rcases s0 <;>
          simp_all [stepConn, tearDownChannel]
    | connStateChange p0 =>
      by_cases htorn : st.torn
      · simp [stepConn, htorn, hcaller, hcallee]
      · rcases p0 <;>
          simp_all [stepConn, tearDownChannel]
  · intro htorn hs
    rcases hs with rfl | rfl <;> simp [stepConn, htorn, tearDownChannel]
  · intro htorn hp
    rcases hp with rfl | rfl | rfl <;> simp [stepConn, htorn, tearDownChannel]

/-- C7 witness: the amended clearing and teardown behavior
instantiated on a live connection holding one candidate per list. -/
theorem C7_candidate_clearing_witness :
    ((stepConn true
        { callerCandidates := [0], calleeCandidates := [1], torn := false }
        (.iceStateChange .connected)).callerCandidates = []
      ∧ (stepConn true
        { callerCandidates := [0], calleeCandidates := [1], torn := false }
        (.iceStateChange .connected)).calleeCandidates = [])
    ∧ stepConn true
        { callerCandidates := [0], calleeCandidates := [1], torn := false }
        (.connStateChange .disconnected) = tearDownChannel :=
  ⟨(C7_candidate_clearing true
      { callerCandidates := [0], calleeCandidates := [1], torn := false }
      .connected .disconnected (.iceStateChange .connected)).1 rfl (Or.inl rfl),
   (C7_candidate_clearing true
      { callerCandidates := [0], calleeCandidates := [1], torn := false }
      .connected .disconnected (.iceStateChange .connected)).2.2.2 rfl
      (Or.inl rfl)⟩

end CleanCall
